import Mathlib

/-
Shallow embedding of appstreamlint (src/appstreamlint.go), a single-pass
validator for AppStream MetaInfo component documents.  The Go program parses
an XML file into a Component value and then runs an ordered sequence of
checks, printing findings and exiting non-zero on the first Error.

Modelling choices:
  * Strings are Lean Strings; Go's len() and fixed-offset slicing are modelled
    at character granularity via the character list (all rule constants in the
    program are ASCII, where byte indices and character indices coincide).
  * A Go slice expression s[:n] (or s[k:]) whose bound falls outside the
    string is a runtime panic; branches of the program where that happens are
    modelled by an explicit panic result rather than a value.
  * The required-field presence check iterates a Go map; Go randomises map
    iteration order per run, so the iteration sequence is passed in as an
    explicit parameter, constrained in theorems to be a permutation of the
    map's key/value pairs.
  * Printing and os.Exit are modelled by the Outcome value: the program's
    observable result is the verdict together with the list of findings.
-/

namespace Appstreamlint

/-- Launchable element (launchable tag: the type attribute and its character
data), from the Go struct Launchable. -/
structure Launchable where
  type : String
  contents : String
  deriving DecidableEq, Repr

/-- Image element (image tag inside a screenshot), from the Go struct Image. -/
structure Image where
  type : String
  width : Int
  height : Int
  source : String
  deriving DecidableEq, Repr

/-- Screenshot element, from the Go struct Screenshot. -/
structure Screenshot where
  caption : String
  image : Image
  environment : String
  deriving DecidableEq, Repr

/-- The root component document, from the Go struct Component. -/
structure Component where
  type : String
  id : String
  name : String
  summary : String
  metadataLicense : String
  projectLicense : String
  description : String
  launchable : Launchable
  screenshots : List Screenshot
  deriving DecidableEq, Repr

/-- One diagnostic the program prints, tagged by which check produced it.
Constructors carry the values the program prints alongside the message. -/
inductive Finding where
  | filenameMismatch (correct actual : String)
  | emptyField (field : String)
  | badComponentType
  | licenseWarning (allowed : List String) (actual : String)
  | nameTooShort
  | summaryTooShort
  | badLaunchableType (actual : String)
  | noScreenshotsWarning
  | noScreenshotInside
  | badImageType
  | badImageScheme
  | badImageExt (valid : List String) (actualExt : String)
  deriving DecidableEq, Repr

/-- Result of one check: pass, fail with a printed Error finding, or a Go
runtime panic (out-of-range slice). -/
inductive CheckResult where
  | ok
  | err (f : Finding)
  | panic
  deriving DecidableEq, Repr

/-- Result of a whole run: the verdict together with the Warning findings
accumulated before the run ended (and the Error finding on rejection). -/
inductive Outcome where
  | accepted (warnings : List Finding)
  | rejected (error : Finding) (warnings : List Finding)
  | panicked (warnings : List Finding)
  deriving DecidableEq, Repr

/-- Coarse verdict of an outcome, without the findings. -/
inductive Verdict where
  | accepted
  | rejected
  | panicked
  deriving DecidableEq, Repr

/-- Characters of a string, for Go-style index arithmetic. -/
def chars (s : String) : List Char := s.data

/-- URL scheme check on a screenshot source (appstreamlint.go line 191):
Go evaluates `len(s) < 7 || (s[:7] != "http://" && s[:8] != "https://")`
with short-circuit semantics.  When the string has exactly 7 characters and
they are not "http://", the slice s[:8] is out of range: a runtime panic. -/
def schemeCheck (s : String) : CheckResult :=
  if s.length < 7 then .err .badImageScheme
  else if (chars s).take 7 = chars "http://" then .ok
  else if s.length < 8 then .panic
  else if (chars s).take 8 = chars "https://" then .ok
  else .err .badImageScheme

/-- The fixed extension allow-list (appstreamlint.go line 196). -/
def validExtensions : List String := [".png", ".jpg", ".jpeg"]

/-- The extension loop (lines 198-203): a candidate matches when the source is
strictly longer than the candidate and its trailing slice equals it; the
length guard short-circuits, so the slice is always in range. -/
def extValid (s : String) : Bool :=
  validExtensions.any fun ext =>
    decide (ext.length < s.length) &&
      decide ((chars s).drop (s.length - ext.length) = chars ext)

/-- The extension check with its failure diagnostic (lines 204-209): on
failure the program prints the allowed set and s[len(s)-4:]; in Go a negative
start index would be a runtime panic. -/
def extCheck (s : String) : CheckResult :=
  if extValid s then .ok
  else if s.length < 4 then .panic
  else .err (.badImageExt validExtensions (String.mk ((chars s).drop (s.length - 4))))

/-- Checks run on one screenshot (lines 183-210). -/
def screenshotCheck (sc : Screenshot) : CheckResult :=
  if sc.image.type ≠ "source" ∧ sc.image.type ≠ "video" ∧ sc.image.type ≠ "" then
    .err .badImageType
  else if sc.image.type = "source" then
    match schemeCheck sc.image.source with
    | .ok => extCheck sc.image.source
    | r => r
  else .ok

/-- The screenshot loop (line 182): first non-passing screenshot ends the
run, matching the program's exit-on-first-Error behaviour. -/
def screenshotsCheck : List Screenshot → CheckResult
  | [] => .ok
  | sc :: rest =>
    match screenshotCheck sc with
    | .ok => screenshotsCheck rest
    | r => r

/-- The requiredFields map contents (lines 80-90), in declaration order.
The Go map iteration visits these nine pairs in a randomised order. -/
def requiredFields (c : Component) : List (String × String) :=
  [("Type", c.type), ("ID", c.id), ("Name", c.name), ("Summary", c.summary),
   ("MetadataLicense", c.metadataLicense), ("ProjectLicense", c.projectLicense),
   ("Description", c.description), ("LaunchableType", c.launchable.type),
   ("Launchable", c.launchable.contents)]

/-- The presence loop (lines 92-97): the first pair with an empty value, in
the given iteration order, is reported. -/
def firstEmpty : List (String × String) → Option String
  | [] => none
  | p :: rest => if p.2 = "" then some p.1 else firstEmpty rest

/-- The metadata-license allow-list (lines 117-132). -/
def allowedLicenses : List String :=
  ["FSFAP", "MIT", "0BSD", "CC0-1.0", "CC-BY-3.0", "CC-BY-4.0", "CC-BY-SA-3.0",
   "CC-BY-SA-4.0", "GFDL-1.1", "GFDL-1.2", "GFDL-1.3", "BSL-1.0", "FTL", "FSFUL"]

/-- The license loop and warning (lines 134-145): advisory only. -/
def licenseWarnings (c : Component) : List Finding :=
  if c.metadataLicense ∈ allowedLicenses then []
  else [.licenseWarning allowedLicenses c.metadataLicense]

/-- Steps after the license warning (lines 149-215): name length, summary
length, launchable type, and the screenshots block with its nested
screenshot-count branches exactly as written in the source. -/
def contentStage (c : Component) : Outcome :=
  if c.name.length < 2 then .rejected .nameTooShort (licenseWarnings c)
  else if c.summary.length < 10 then .rejected .summaryTooShort (licenseWarnings c)
  else if c.launchable.type ≠ "desktop-id" then
    .rejected (.badLaunchableType c.launchable.type) (licenseWarnings c)
  else if c.screenshots.length = 0 then
    .accepted (licenseWarnings c ++ [.noScreenshotsWarning])
  else if c.screenshots.length = 0 then
    .rejected .noScreenshotInside (licenseWarnings c)
  else
    match screenshotsCheck c.screenshots with
    | .ok => .accepted (licenseWarnings c)
    | .err e => .rejected e (licenseWarnings c)
    | .panic => .panicked (licenseWarnings c)

/-- The whole validator (main, lines 66-215), as a function of the parsed
component, the supplied file path and the map iteration order used by the
presence check. -/
def validate (order : List (String × String)) (c : Component) (filePath : String) :
    Outcome :=
  if filePath ≠ c.id ++ ".appdata.xml" ∧ filePath ≠ c.id ++ ".metainfo.xml" then
    .rejected (.filenameMismatch (c.id ++ ".metainfo.xml") filePath) []
  else
    match firstEmpty order with
    | some fld => .rejected (.emptyField fld) []
    | none =>
      if c.type ≠ "desktop-application" ∧ c.type ≠ "desktop" then
        .rejected .badComponentType []
      else contentStage c

/-- Coarse verdict of an outcome. -/
def verdictTag : Outcome → Verdict
  | .accepted _ => .accepted
  | .rejected _ _ => .rejected
  | .panicked _ => .panicked

/-- The outcome is a rejection whose Error is the step-1 filename finding. -/
def isFilenameError : Outcome → Bool
  | .rejected (.filenameMismatch _ _) _ => true
  | _ => false

/-- The outcome is a rejection whose Error is a step-2 presence finding. -/
def isEmptyFieldError : Outcome → Bool
  | .rejected (.emptyField _) _ => true
  | _ => false

/-- The outcome is a rejection whose Error is the step-3 kind finding. -/
def isComponentTypeError : Outcome → Bool
  | .rejected .badComponentType _ => true
  | _ => false

/-- The outcome is a rejection whose Error is the step-5 name-length finding. -/
def isNameShortError : Outcome → Bool
  | .rejected .nameTooShort _ => true
  | _ => false

/-- The outcome is a rejection whose Error is the step-6 summary-length finding. -/
def isSummaryShortError : Outcome → Bool
  | .rejected .summaryTooShort _ => true
  | _ => false

/-- The outcome is a rejection whose Error is the inner no-screenshot finding. -/
def isNoScreenshotInsideError : Outcome → Bool
  | .rejected .noScreenshotInside _ => true
  | _ => false

/-- The outcome is a rejection (any Error). -/
def isRejectedOutcome : Outcome → Bool
  | .rejected _ _ => true
  | _ => false

/-- The finding is one the screenshot loop can produce. -/
def fromScreenshots : Finding → Bool
  | .badImageType => true
  | .badImageScheme => true
  | .badImageExt _ _ => true
  | _ => false

/-- Spec-side predicate for the extension claim: the trailing characters of s
equal ext, that is, s ends with ext (no strictness requirement). -/
def trailsWith (s ext : String) : Bool :=
  decide (ext.length ≤ s.length) &&
    decide ((chars s).drop (s.length - ext.length) = chars ext)

/-- The presence loop finds nothing exactly when every value is non-empty. -/
lemma firstEmpty_eq_none_iff (l : List (String × String)) :
    firstEmpty l = none ↔ ∀ p ∈ l, p.2 ≠ "" := by
  induction l with
  | nil => simp [firstEmpty]
  | cons p rest ih =>
    by_cases h : p.2 = ""
    · simp [firstEmpty, h]
    · simp [firstEmpty, h, ih]

/-- A pair with an empty value forces the presence loop to report a field. -/
lemma firstEmpty_isSome_of_mem (l : List (String × String)) (x : String)
    (hx : (x, "") ∈ l) : ∃ fld, firstEmpty l = some fld := by
  induction l with
  | nil => cases hx
  | cons p rest ih =>
    by_cases h : p.2 = ""
    · exact ⟨p.1, by simp [firstEmpty, h]⟩
    · rcases List.mem_cons.mp hx with hx | hx
      · exact absurd (congrArg Prod.snd hx.symm) h
      · rcases ih hx with ⟨fld, hf⟩
        exact ⟨fld, by simp [firstEmpty, h, hf]⟩

/-- With exactly one empty value in the list, the presence loop reports that
pair's field name, whatever the iteration order. -/
lemma firstEmpty_eq_of_unique (l : List (String × String)) (x : String)
    (hx : (x, "") ∈ l) (hc : l.countP (fun p => p.2 == "") = 1) :
    firstEmpty l = some x := by
  induction l with
  | nil => cases hx
  | cons p rest ih =>
    rw [List.countP_cons] at hc
    by_cases h : p.2 = ""
    · have ht : (fun p => p.2 == "") p = true := by simp [h]
      rw [if_pos ht] at hc
      have hz : rest.countP (fun p => p.2 == "") = 0 := by omega
      rcases List.mem_cons.mp hx with hx | hx
      · rw [← hx]; simp [firstEmpty]
      · exfalso
        have := List.countP_eq_zero.mp hz _ hx
        simp at this
    · have ht : ¬ ((fun p => p.2 == "") p = true) := by simp [h]
      rw [if_neg ht] at hc
      have hc' : rest.countP (fun p => p.2 == "") = 1 := by omega
      rcases List.mem_cons.mp hx with hx | hx
      · exact absurd (congrArg Prod.snd hx.symm) h
      · simp [firstEmpty, h, ih hx hc']

/-- A passing scheme check needs at least seven characters. -/
lemma schemeCheck_ok_length (s : String) (h : schemeCheck s = .ok) :
    7 ≤ s.length := by
  unfold schemeCheck at h
  by_cases h7 : s.length < 7
  · rw [if_pos h7] at h; cases h
  · omega

/-- The scheme check only ever fails with the scheme finding. -/
lemma schemeCheck_err (s : String) (e : Finding) (h : schemeCheck s = .err e) :
    e = .badImageScheme := by
  unfold schemeCheck at h
  split at h
  · cases h; rfl
  · split at h
    · cases h
    · split at h
      · cases h
      · split at h
        · cases h
        · cases h; rfl

/-- The extension check only ever fails with the extension finding. -/
lemma extCheck_err (s : String) (e : Finding) (h : extCheck s = .err e) :
    ∃ v a, e = .badImageExt v a := by
  unfold extCheck at h
  split at h
  · cases h
  · split at h
    · cases h
    · cases h; exact ⟨_, _, rfl⟩

/-- Any Error out of one screenshot's checks is a screenshot finding. -/
lemma screenshotCheck_err (sc : Screenshot) (e : Finding)
    (h : screenshotCheck sc = .err e) : fromScreenshots e = true := by
  unfold screenshotCheck at h
  split at h
  · cases h; rfl
  · split at h
    · rcases hs : schemeCheck sc.image.source with _ | e' | _
      · rw [hs] at h
        rcases extCheck_err _ _ h with ⟨v, a, rfl⟩
        rfl
      · rw [hs] at h
        cases h
        rw [schemeCheck_err _ _ hs]
        rfl
      · rw [hs] at h; cases h
    · cases h

/-- Any Error out of the screenshot loop is a screenshot finding. -/
lemma screenshotsCheck_err (l : List Screenshot) (e : Finding)
    (h : screenshotsCheck l = .err e) : fromScreenshots e = true := by
  induction l with
  | nil => cases h
  | cons sc rest ih =>
    unfold screenshotsCheck at h
    rcases hs : screenshotCheck sc with _ | e' | _
    · rw [hs] at h; exact ih h
    · rw [hs] at h; cases h; exact screenshotCheck_err _ _ hs
    · rw [hs] at h; cases h

/-- Screenshot findings are none of the findings of steps 1 to 6 nor the
inner no-screenshot finding. -/
lemma fromScreenshots_not_other (e : Finding) (ws : List Finding)
    (h : fromScreenshots e = true) :
    isFilenameError (.rejected e ws) = false ∧
    isEmptyFieldError (.rejected e ws) = false ∧
    isComponentTypeError (.rejected e ws) = false ∧
    isNameShortError (.rejected e ws) = false ∧
    isSummaryShortError (.rejected e ws) = false ∧
    isNoScreenshotInsideError (.rejected e ws) = false := by
  cases e <;> simp_all [fromScreenshots, isFilenameError, isEmptyFieldError,
    isComponentTypeError, isNameShortError, isSummaryShortError,
    isNoScreenshotInsideError]

/-- The later steps never produce the findings of steps 1, 2 or 3, and never
the inner no-screenshot finding. -/
lemma contentStage_shape (c : Component) :
    isFilenameError (contentStage c) = false ∧
    isEmptyFieldError (contentStage c) = false ∧
    isComponentTypeError (contentStage c) = false ∧
    isNoScreenshotInsideError (contentStage c) = false := by
  unfold contentStage
  by_cases h1 : c.name.length < 2
  · rw [if_pos h1]
    simp [isFilenameError, isEmptyFieldError, isComponentTypeError,
      isNoScreenshotInsideError]
  rw [if_neg h1]
  by_cases h2 : c.summary.length < 10
  · rw [if_pos h2]
    simp [isFilenameError, isEmptyFieldError, isComponentTypeError,
      isNoScreenshotInsideError]
  rw [if_neg h2]
  by_cases h3 : c.launchable.type ≠ "desktop-id"
  · rw [if_pos h3]
    simp [isFilenameError, isEmptyFieldError, isComponentTypeError,
      isNoScreenshotInsideError]
  rw [if_neg h3]
  by_cases h4 : c.screenshots.length = 0
  · rw [if_pos h4]
    simp [isFilenameError, isEmptyFieldError, isComponentTypeError,
      isNoScreenshotInsideError]
  rw [if_neg h4, if_neg h4]
  rcases hsc : screenshotsCheck c.screenshots with _ | e | _
  · simp only [hsc]
    simp [isFilenameError, isEmptyFieldError, isComponentTypeError,
      isNoScreenshotInsideError]
  · simp only [hsc]
    have he := screenshotsCheck_err _ _ hsc
    rcases fromScreenshots_not_other e (licenseWarnings c) he with
      ⟨g1, g2, g3, _, _, g6⟩
    exact ⟨g1, g2, g3, g6⟩
  · simp only [hsc]
    simp [isFilenameError, isEmptyFieldError, isComponentTypeError,
      isNoScreenshotInsideError]

/-- When the filename matches, the step-1 branch is not taken and no later
step produces the filename finding. -/
lemma no_filename_error_after_step1 (order : List (String × String))
    (c : Component) (f : String)
    (h : ¬(f ≠ c.id ++ ".appdata.xml" ∧ f ≠ c.id ++ ".metainfo.xml")) :
    isFilenameError (validate order c f) = false := by
  unfold validate
  rw [if_neg h]
  rcases hfe : firstEmpty order with _ | fld
  · simp only [hfe]
    by_cases hty : (c.type ≠ "desktop-application" ∧ c.type ≠ "desktop")
    · rw [if_pos hty]; rfl
    · rw [if_neg hty]; exact (contentStage_shape c).1
  · simp only [hfe]; rfl

/-- When every mandatory rule is satisfied, the run is accepted with exactly
the advisory warnings. -/
lemma validate_all_ok (order : List (String × String)) (c : Component)
    (f : String)
    (hfn : f = c.id ++ ".appdata.xml" ∨ f = c.id ++ ".metainfo.xml")
    (hfe : firstEmpty order = none)
    (hty : c.type = "desktop-application" ∨ c.type = "desktop")
    (hn : 2 ≤ c.name.length) (hs : 10 ≤ c.summary.length)
    (hl : c.launchable.type = "desktop-id")
    (hsc : screenshotsCheck c.screenshots = .ok) :
    validate order c f =
      .accepted (licenseWarnings c ++
        if c.screenshots = [] then [.noScreenshotsWarning] else []) := by
  have hstep1 : ¬(f ≠ c.id ++ ".appdata.xml" ∧ f ≠ c.id ++ ".metainfo.xml") := by
    intro hc
    rcases hfn with h | h
    exacts [hc.1 h, hc.2 h]
  unfold validate
  rw [if_neg hstep1]
  simp only [hfe]
  rw [if_neg (by rcases hty with h | h <;> simp [h])]
  unfold contentStage
  rw [if_neg (by omega), if_neg (by omega), if_neg (by simp [hl])]
  by_cases hz : c.screenshots = []
  · have hz' : c.screenshots.length = 0 := by simp [hz]
    rw [if_pos hz', if_pos hz]
  · have hz' : ¬ c.screenshots.length = 0 := by
      simpa [List.length_eq_zero] using hz
    rw [if_neg hz', if_neg hz', if_neg hz]
    simp only [hsc, List.append_nil]

/-- The validator depends on the iteration order only through the presence
loop's result. -/
lemma validate_order_congr (o1 o2 : List (String × String)) (c : Component)
    (f : String) (h : firstEmpty o1 = firstEmpty o2) :
    validate o1 c f = validate o2 c f := by
  unfold validate
  rw [h]

/-- Past the name and summary checks, neither length finding can appear. -/
lemma contentStage_tail_shape (c : Component)
    (hn : ¬ c.name.length < 2) (hs : ¬ c.summary.length < 10) :
    isNameShortError (contentStage c) = false ∧
    isSummaryShortError (contentStage c) = false := by
  unfold contentStage
  rw [if_neg hn, if_neg hs]
  by_cases hl : c.launchable.type ≠ "desktop-id"
  · rw [if_pos hl]; exact ⟨rfl, rfl⟩
  rw [if_neg hl]
  by_cases hz : c.screenshots.length = 0
  · rw [if_pos hz]; exact ⟨rfl, rfl⟩
  rw [if_neg hz, if_neg hz]
  rcases hsc : screenshotsCheck c.screenshots with _ | e | _
  · simp only [hsc]; exact ⟨rfl, rfl⟩
  · simp only [hsc]
    have he := fromScreenshots_not_other e (licenseWarnings c)
      (screenshotsCheck_err _ _ hsc)
    exact ⟨he.2.2.2.1, he.2.2.2.2.1⟩
  · simp only [hsc]; exact ⟨rfl, rfl⟩

/-- One pass of the extension loop agrees with plain ends-with whenever the
string is strictly longer than the candidate. -/
lemma extPiece (s ext : String) (h : ext.length < s.length) :
    (decide (ext.length < s.length) &&
      decide ((chars s).drop (s.length - ext.length) = chars ext)) =
      trailsWith s ext := by
  unfold trailsWith
  rw [decide_eq_true h, decide_eq_true (Nat.le_of_lt h)]

/-- A fully valid component, the base for the concrete runs below. -/
def baseComp : Component :=
  { type := "desktop-application"
    id := "org.example.app"
    name := "MyApp"
    summary := "A sufficiently long summary"
    metadataLicense := "MIT"
    projectLicense := "GPL-3.0"
    description := "An example application."
    launchable := { type := "desktop-id", contents := "org.example.app.desktop" }
    screenshots := [] }

/-- Valid component except for a screenshot source of exactly 7 characters
with a non-http scheme. -/
def panicComp : Component :=
  { baseComp with
    screenshots :=
      [{ caption := ""
         image := { type := "source", width := 0, height := 0, source := "ftp://x" }
         environment := "" }] }

/-- Valid component except for an empty id. -/
def emptyIdComp : Component := { baseComp with id := "" }

/-- Valid component except for an empty name. -/
def emptyNameComp : Component := { baseComp with name := "" }

/-- Valid component except for a metadata license outside the allow-list. -/
def offListComp : Component := { baseComp with metadataLicense := "GPL-2.0" }

/-- Valid component except for a component type outside the allow-list. -/
def badKindComp : Component := { baseComp with type := "service" }

/-- Valid component except for a one-character name. -/
def shortNameComp : Component := { baseComp with name := "A" }

/-- Valid component except for empty name and empty summary at once. -/
def twoEmptyComp : Component := { baseComp with name := "", summary := "" }

/-- C1: the claim says the prefix check never makes an out-of-bounds string
access and rejects every non-http(s) source with the prefix Error.  A source
shorter than 7 characters is indeed rejected without a crash, but on a source
of exactly 7 characters whose leading characters are not "http://" the
program evaluates the out-of-range slice source[:8] and panics instead of
rejecting: a run on an otherwise fully valid document with screenshot source
"ftp://x" ends in a runtime panic. -/
theorem source_len7_scheme_panic :
    schemeCheck "ht" = .err .badImageScheme ∧
    schemeCheck "ftp://x" = .panic ∧
    validate (requiredFields panicComp) panicComp "org.example.app.metainfo.xml" =
      .panicked [] := by
  decide

/-- C2 counterexample: for a document whose id is empty, the supplied filename
".appdata.xml" equals id ++ ".appdata.xml", so the step-1 filename check
passes and the run is rejected at step 2 with the empty-ID presence Error,
not with the filename-mismatch Error the claim requires. -/
theorem empty_id_counterexample :
    validate (requiredFields emptyIdComp) emptyIdComp ".appdata.xml" =
      .rejected (.emptyField "ID") [] ∧
    isFilenameError
      (validate (requiredFields emptyIdComp) emptyIdComp ".appdata.xml") =
      false := by
  decide

/-- C2 amended: for a document whose id is empty, the step-1 filename check
fails with the filename-mismatch Error for every filename other than
".appdata.xml" and ".metainfo.xml"; those two filenames pass step 1 and the
filename-mismatch Error is never emitted for them. -/
theorem empty_id_step1_amended (order : List (String × String)) (c : Component)
    (hid : c.id = "") :
    (∀ f, f ≠ ".appdata.xml" → f ≠ ".metainfo.xml" →
      validate order c f =
        .rejected (.filenameMismatch (c.id ++ ".metainfo.xml") f) []) ∧
    isFilenameError (validate order c ".appdata.xml") = false ∧
    isFilenameError (validate order c ".metainfo.xml") = false := by
  have ha : c.id ++ ".appdata.xml" = ".appdata.xml" := by rw [hid]; rfl
  have hm : c.id ++ ".metainfo.xml" = ".metainfo.xml" := by rw [hid]; rfl
  refine ⟨?_, ?_, ?_⟩
  · intro f hfa hfm
    unfold validate
    rw [if_pos ⟨by rw [ha]; exact hfa, by rw [hm]; exact hfm⟩]
  · apply no_filename_error_after_step1
    intro hcon
    exact hcon.1 ha.symm
  · apply no_filename_error_after_step1
    intro hcon
    exact hcon.2 hm.symm

/-- C2 amended, at a concrete input: empty id and a filename that is neither
of the two accepted strings is rejected at step 1 with the filename Error. -/
theorem empty_id_step1_amended_witness :
    validate (requiredFields emptyIdComp) emptyIdComp "x.appdata.xml" =
      .rejected
        (.filenameMismatch (emptyIdComp.id ++ ".metainfo.xml") "x.appdata.xml")
        [] :=
  (empty_id_step1_amended (requiredFields emptyIdComp) emptyIdComp rfl).1
    "x.appdata.xml" (by decide) (by decide)

/-- C3: the run is rejected with the step-1 filename-mismatch Error exactly
when the filename differs from both id ++ ".appdata.xml" and
id ++ ".metainfo.xml"; when it equals either, step 1 passes and the filename
Error is never emitted. -/
theorem step1_rejects_iff (order : List (String × String)) (c : Component)
    (f : String) :
    isFilenameError (validate order c f) = true ↔
      (f ≠ c.id ++ ".appdata.xml" ∧ f ≠ c.id ++ ".metainfo.xml") := by
  by_cases h : (f ≠ c.id ++ ".appdata.xml" ∧ f ≠ c.id ++ ".metainfo.xml")
  · constructor
    · intro _; exact h
    · intro _
      unfold validate
      rw [if_pos h]
      rfl
  · rw [no_filename_error_after_step1 order c f h]
    simp [h]

/-- C10: the inner "no screenshot tag inside screenshots tag" Error sits in
the branch taken when the screenshot list is non-empty, behind a second test
that the list is empty, so no run on any document, filename and field order
ever emits it. -/
theorem inner_screenshot_error_unreachable (order : List (String × String))
    (c : Component) (f : String) :
    isNoScreenshotInsideError (validate order c f) = false := by
  unfold validate
  by_cases hstep1 : (f ≠ c.id ++ ".appdata.xml" ∧ f ≠ c.id ++ ".metainfo.xml")
  · rw [if_pos hstep1]; rfl
  · rw [if_neg hstep1]
    rcases hfe : firstEmpty order with _ | fld
    · simp only [hfe]
      by_cases hty : (c.type ≠ "desktop-application" ∧ c.type ≠ "desktop")
      · rw [if_pos hty]; rfl
      · rw [if_neg hty]; exact (contentStage_shape c).2.2.2
    · simp only [hfe]; rfl

/-- C4: under any iteration order of the required-field map, a document that
passed step 1 with any of the nine mandatory fields empty is rejected with a
presence Error, and a document with all nine fields non-empty is never
rejected at the presence check. -/
theorem presence_check_correct (order : List (String × String)) (c : Component)
    (f : String) (hperm : order.Perm (requiredFields c))
    (hfn : f = c.id ++ ".appdata.xml" ∨ f = c.id ++ ".metainfo.xml") :
    ((c.type = "" ∨ c.id = "" ∨ c.name = "" ∨ c.summary = "" ∨
        c.metadataLicense = "" ∨ c.projectLicense = "" ∨ c.description = "" ∨
        c.launchable.type = "" ∨ c.launchable.contents = "") →
      isEmptyFieldError (validate order c f) = true) ∧
    ((∀ p ∈ requiredFields c, p.2 ≠ "") →
      isEmptyFieldError (validate order c f) = false) := by
  have hstep1 : ¬(f ≠ c.id ++ ".appdata.xml" ∧ f ≠ c.id ++ ".metainfo.xml") := by
    intro hc
    rcases hfn with h | h
    exacts [hc.1 h, hc.2 h]
  constructor
  · intro hemp
    have hx : ∃ x, (x, "") ∈ requiredFields c := by
      rcases hemp with h | h | h | h | h | h | h | h | h
      · exact ⟨"Type", by simp [requiredFields, h]⟩
      · exact ⟨"ID", by simp [requiredFields, h]⟩
      · exact ⟨"Name", by simp [requiredFields, h]⟩
      · exact ⟨"Summary", by simp [requiredFields, h]⟩
      · exact ⟨"MetadataLicense", by simp [requiredFields, h]⟩
      · exact ⟨"ProjectLicense", by simp [requiredFields, h]⟩
      · exact ⟨"Description", by simp [requiredFields, h]⟩
      · exact ⟨"LaunchableType", by simp [requiredFields, h]⟩
      · exact ⟨"Launchable", by simp [requiredFields, h]⟩
    rcases hx with ⟨x, hx⟩
    rcases firstEmpty_isSome_of_mem order x (hperm.mem_iff.mpr hx) with ⟨fld, hf⟩
    unfold validate
    rw [if_neg hstep1]
    simp only [hf]
    rfl
  · intro hne
    have hfe : firstEmpty order = none :=
      (firstEmpty_eq_none_iff order).mpr (fun p hp => hne p (hperm.mem_iff.mp hp))
    unfold validate
    rw [if_neg hstep1]
    simp only [hfe]
    by_cases hty : (c.type ≠ "desktop-application" ∧ c.type ≠ "desktop")
    · rw [if_pos hty]; rfl
    · rw [if_neg hty]; exact (contentStage_shape c).2.1

/-- C4 at a concrete input: an otherwise valid document with an empty name is
rejected with a presence Error. -/
theorem presence_check_correct_witness :
    isEmptyFieldError
      (validate (requiredFields emptyNameComp) emptyNameComp
        "org.example.app.appdata.xml") = true :=
  (presence_check_correct (requiredFields emptyNameComp) emptyNameComp
      "org.example.app.appdata.xml" (List.Perm.refl _) (Or.inl rfl)).1
    (Or.inr (Or.inr (Or.inl rfl)))

/-- C5: for a document satisfying every mandatory rule, a metadata license
outside the allow-list yields Accepted with exactly one Warning carrying the
allowed set and the actual value, and an empty screenshot sequence yields
Accepted with the no-screenshots Warning, step 9 never running. -/
theorem advisory_checks_never_fatal (order : List (String × String))
    (c : Component) (f : String)
    (hperm : order.Perm (requiredFields c))
    (hfn : f = c.id ++ ".appdata.xml" ∨ f = c.id ++ ".metainfo.xml")
    (hne : ∀ p ∈ requiredFields c, p.2 ≠ "")
    (hty : c.type = "desktop-application" ∨ c.type = "desktop")
    (hn : 2 ≤ c.name.length) (hs : 10 ≤ c.summary.length)
    (hl : c.launchable.type = "desktop-id")
    (hsc : screenshotsCheck c.screenshots = .ok) :
    (c.metadataLicense ∉ allowedLicenses →
      validate order c f =
        .accepted (.licenseWarning allowedLicenses c.metadataLicense ::
          (if c.screenshots = [] then [.noScreenshotsWarning] else []))) ∧
    (c.screenshots = [] →
      validate order c f =
        .accepted (licenseWarnings c ++ [.noScreenshotsWarning])) := by
  have hfe : firstEmpty order = none :=
    (firstEmpty_eq_none_iff order).mpr (fun p hp => hne p (hperm.mem_iff.mp hp))
  have hmain := validate_all_ok order c f hfn hfe hty hn hs hl hsc
  constructor
  · intro hlic
    rw [hmain]
    unfold licenseWarnings
    rw [if_neg hlic]
    rfl
  · intro hz
    rw [hmain, if_pos hz]

/-- C5 at a concrete input: a valid document with license "GPL-2.0" (not in
the allow-list) and no screenshots is accepted with the license Warning and
the no-screenshots Warning. -/
theorem advisory_checks_never_fatal_witness :
    validate (requiredFields offListComp) offListComp
        "org.example.app.metainfo.xml" =
      .accepted [.licenseWarning allowedLicenses "GPL-2.0",
        .noScreenshotsWarning] :=
  (advisory_checks_never_fatal (requiredFields offListComp) offListComp
      "org.example.app.metainfo.xml" (List.Perm.refl _) (Or.inr rfl) (by decide)
      (Or.inl rfl) (by decide) (by decide) rfl rfl).1 (by decide)

/-- C7: for a document that reached step 3 (filename matched, all nine
fields non-empty), the run is rejected with the kind Error exactly when the
component type is neither "desktop-application" nor "desktop". -/
theorem kind_check_rejects_iff (order : List (String × String)) (c : Component)
    (f : String) (hperm : order.Perm (requiredFields c))
    (hfn : f = c.id ++ ".appdata.xml" ∨ f = c.id ++ ".metainfo.xml")
    (hne : ∀ p ∈ requiredFields c, p.2 ≠ "") :
    isComponentTypeError (validate order c f) = true ↔
      (c.type ≠ "desktop-application" ∧ c.type ≠ "desktop") := by
  have hstep1 : ¬(f ≠ c.id ++ ".appdata.xml" ∧ f ≠ c.id ++ ".metainfo.xml") := by
    intro hc
    rcases hfn with h | h
    exacts [hc.1 h, hc.2 h]
  have hfe : firstEmpty order = none :=
    (firstEmpty_eq_none_iff order).mpr (fun p hp => hne p (hperm.mem_iff.mp hp))
  unfold validate
  rw [if_neg hstep1]
  simp only [hfe]
  by_cases hty : (c.type ≠ "desktop-application" ∧ c.type ≠ "desktop")
  · rw [if_pos hty]
    simp [isComponentTypeError, hty]
  · rw [if_neg hty, (contentStage_shape c).2.2.1]
    simp [hty]

/-- C7 at a concrete input: kind "service" is rejected with the kind Error. -/
theorem kind_check_rejects_iff_witness :
    isComponentTypeError
      (validate (requiredFields badKindComp) badKindComp
        "org.example.app.metainfo.xml") = true :=
  (kind_check_rejects_iff (requiredFields badKindComp) badKindComp
      "org.example.app.metainfo.xml" (List.Perm.refl _) (Or.inr rfl)
      (by decide)).mpr (by decide)

/-- A document whose name is shorter than 2 characters or whose summary is
shorter than 10 cannot get past steps 5 and 6: whatever earlier check fires
first, the later steps are the only ones that can accept. -/
lemma contentStage_rejected_of_short (c : Component)
    (h : c.name.length < 2 ∨ c.summary.length < 10) :
    isRejectedOutcome (contentStage c) = true := by
  unfold contentStage
  by_cases h1 : c.name.length < 2
  · rw [if_pos h1]; rfl
  · rw [if_neg h1]
    have h2 : c.summary.length < 10 := by rcases h with h | h <;> omega
    rw [if_pos h2]
    rfl

/-- A short name or short summary forces rejection of the whole run, whatever
the filename and the field iteration order: every path either hits an earlier
Error or reaches the length checks. -/
lemma validate_rejected_of_short (order : List (String × String))
    (c : Component) (f : String)
    (h : c.name.length < 2 ∨ c.summary.length < 10) :
    isRejectedOutcome (validate order c f) = true := by
  unfold validate
  by_cases hstep1 : (f ≠ c.id ++ ".appdata.xml" ∧ f ≠ c.id ++ ".metainfo.xml")
  · rw [if_pos hstep1]; rfl
  rw [if_neg hstep1]
  rcases hfe : firstEmpty order with _ | fld
  · simp only [hfe]
    by_cases hty : (c.type ≠ "desktop-application" ∧ c.type ≠ "desktop")
    · rw [if_pos hty]; rfl
    · rw [if_neg hty]
      exact contentStage_rejected_of_short c h
  · simp only [hfe]; rfl

/-- The name-length finding is only ever emitted for a name shorter than 2. -/
lemma contentStage_no_name_error (c : Component) (hn : ¬ c.name.length < 2) :
    isNameShortError (contentStage c) = false := by
  by_cases hs : c.summary.length < 10
  · unfold contentStage
    rw [if_neg hn, if_pos hs]
    rfl
  · exact (contentStage_tail_shape c hn hs).1

/-- The summary-length finding is only ever emitted for a summary shorter
than 10. -/
lemma contentStage_no_summary_error (c : Component)
    (hs : ¬ c.summary.length < 10) :
    isSummaryShortError (contentStage c) = false := by
  by_cases hn : c.name.length < 2
  · unfold contentStage
    rw [if_pos hn]
    rfl
  · exact (contentStage_tail_shape c hn hs).2

/-- C8: the minimum-length thresholds are exact, for every document, filename
and field iteration order: a name of length 0 or 1 (any length below 2) gets
the run rejected with an Error, a name of length at least 2 never produces
the step-5 name Error, a summary of length 9 (any length below 10) gets the
run rejected with an Error, and a summary of length at least 10 never
produces the step-6 summary Error. -/
theorem length_thresholds_exact (order : List (String × String)) (c : Component)
    (f : String) :
    (c.name.length < 2 → isRejectedOutcome (validate order c f) = true) ∧
    (2 ≤ c.name.length → isNameShortError (validate order c f) = false) ∧
    (c.summary.length < 10 → isRejectedOutcome (validate order c f) = true) ∧
    (10 ≤ c.summary.length → isSummaryShortError (validate order c f) = false) := by
  refine ⟨?_, ?_, ?_, ?_⟩
  · intro hn1
    exact validate_rejected_of_short order c f (Or.inl hn1)
  · intro hn2
    have hn : ¬ c.name.length < 2 := by omega
    unfold validate
    by_cases hstep1 : (f ≠ c.id ++ ".appdata.xml" ∧ f ≠ c.id ++ ".metainfo.xml")
    · rw [if_pos hstep1]; rfl
    rw [if_neg hstep1]
    rcases hfe : firstEmpty order with _ | fld
    · simp only [hfe]
      by_cases hty : (c.type ≠ "desktop-application" ∧ c.type ≠ "desktop")
      · rw [if_pos hty]; rfl
      · rw [if_neg hty]
        exact contentStage_no_name_error c hn
    · simp only [hfe]; rfl
  · intro hs9
    exact validate_rejected_of_short order c f (Or.inr hs9)
  · intro hs10
    have hs : ¬ c.summary.length < 10 := by omega
    unfold validate
    by_cases hstep1 : (f ≠ c.id ++ ".appdata.xml" ∧ f ≠ c.id ++ ".metainfo.xml")
    · rw [if_pos hstep1]; rfl
    rw [if_neg hstep1]
    rcases hfe : firstEmpty order with _ | fld
    · simp only [hfe]
      by_cases hty : (c.type ≠ "desktop-application" ∧ c.type ≠ "desktop")
      · rw [if_pos hty]; rfl
      · rw [if_neg hty]
        exact contentStage_no_summary_error c hs
    · simp only [hfe]; rfl

/-- C6: for a source that passed the scheme check, the extension check passes
exactly when the source case-sensitively ends with ".png", ".jpg" or ".jpeg"
(each candidate guarded by its own length test, so no slice reaches before
the start), and on failure it reports the allowed set and the trailing four
characters without a panic. -/
theorem ext_check_correct (s : String) (hpass : schemeCheck s = .ok) :
    (extValid s = true ↔
      (trailsWith s ".png" || trailsWith s ".jpg" || trailsWith s ".jpeg") =
        true) ∧
    (extValid s = true → extCheck s = .ok) ∧
    (extValid s = false →
      extCheck s =
        .err (.badImageExt validExtensions
          (String.mk ((chars s).drop (s.length - 4))))) := by
  have h7 := schemeCheck_ok_length s hpass
  have l1 : (".png" : String).length = 4 := rfl
  have l2 : (".jpg" : String).length = 4 := rfl
  have l3 : (".jpeg" : String).length = 5 := rfl
  have heq : extValid s =
      (trailsWith s ".png" || trailsWith s ".jpg" || trailsWith s ".jpeg") := by
    unfold extValid validExtensions
    simp only [List.any_cons, List.any_nil, Bool.or_false]
    rw [extPiece s ".png" (by omega), extPiece s ".jpg" (by omega),
      extPiece s ".jpeg" (by omega), Bool.or_assoc]
  refine ⟨by rw [heq], ?_, ?_⟩
  · intro hv
    unfold extCheck
    rw [if_pos hv]
  · intro hv
    unfold extCheck
    rw [if_neg (by simp [hv]), if_neg (by omega)]

/-- C6 at a concrete input: a .gif source that passed the scheme check is
rejected with the extension Error carrying the allow-list and ".gif". -/
theorem ext_check_correct_witness :
    extCheck "https://example.com/a.gif" =
      .err (.badImageExt validExtensions
        (String.mk ((chars "https://example.com/a.gif").drop
          ("https://example.com/a.gif".length - 4)))) :=
  (ext_check_correct "https://example.com/a.gif" (by decide)).2.2 (by decide)

/-- C9 counterexample: on a document with two empty mandatory fields, two
iteration orders of the same required-field map (the declaration order and
its reverse, a permutation of it) yield rejections naming different fields,
so the emitted findings are not identical across runs. -/
theorem presence_order_counterexample :
    (requiredFields twoEmptyComp).reverse.Perm (requiredFields twoEmptyComp) ∧
    validate (requiredFields twoEmptyComp) twoEmptyComp
        "org.example.app.metainfo.xml" = .rejected (.emptyField "Name") [] ∧
    validate (requiredFields twoEmptyComp).reverse twoEmptyComp
        "org.example.app.metainfo.xml" = .rejected (.emptyField "Summary") [] :=
  ⟨List.reverse_perm _, by decide, by decide⟩

/-- C9 amended: across any two iteration orders of the required-field map the
verdict is identical, and the emitted findings are identical whenever at most
one mandatory field is empty; only which presence Error is reported when two
or more fields are simultaneously empty may differ between runs. -/
theorem validate_order_independent (c : Component) (f : String)
    (o1 o2 : List (String × String))
    (h1 : o1.Perm (requiredFields c)) (h2 : o2.Perm (requiredFields c)) :
    verdictTag (validate o1 c f) = verdictTag (validate o2 c f) ∧
    ((requiredFields c).countP (fun p => p.2 == "") ≤ 1 →
      validate o1 c f = validate o2 c f) := by
  have hnone : firstEmpty o1 = none ↔ firstEmpty o2 = none := by
    rw [firstEmpty_eq_none_iff, firstEmpty_eq_none_iff]
    constructor
    · intro ha p hp
      exact ha p (h1.mem_iff.mpr (h2.mem_iff.mp hp))
    · intro ha p hp
      exact ha p (h2.mem_iff.mpr (h1.mem_iff.mp hp))
  constructor
  · by_cases hstep1 : (f ≠ c.id ++ ".appdata.xml" ∧ f ≠ c.id ++ ".metainfo.xml")
    · unfold validate
      rw [if_pos hstep1, if_pos hstep1]
    · unfold validate
      rw [if_neg hstep1, if_neg hstep1]
      rcases he1 : firstEmpty o1 with _ | f1
      · have he2 := hnone.mp he1
        simp only [he1, he2]
      · have he2 : firstEmpty o2 ≠ none := by
          intro hn
          rw [hnone.mpr hn] at he1
          cases he1
        rcases hx : firstEmpty o2 with _ | f2
        · exact absurd hx he2
        · simp only [he1, hx]
          rfl
  · intro hcount
    apply validate_order_congr
    rcases Nat.le_one_iff_eq_zero_or_eq_one.mp hcount with h0 | hone
    · have hz : ∀ p ∈ requiredFields c, p.2 ≠ "" := by
        intro p hp hemp
        have := List.countP_eq_zero.mp h0 p hp
        simp [hemp] at this
      rw [(firstEmpty_eq_none_iff o1).mpr
          (fun p hp => hz p (h1.mem_iff.mp hp)),
        (firstEmpty_eq_none_iff o2).mpr
          (fun p hp => hz p (h2.mem_iff.mp hp))]
    · have hpos : 0 < (requiredFields c).countP (fun p => p.2 == "") := by omega
      rcases List.countP_pos_iff.mp hpos with ⟨p, hpin, hpe⟩
      have hpe' : p.2 = "" := by simpa using hpe
      have hpair : (p.1, "") ∈ requiredFields c := by
        rw [← hpe']
        simpa using hpin
      rw [firstEmpty_eq_of_unique o1 p.1 (h1.mem_iff.mpr hpair)
          (by rw [h1.countP_eq]; exact hone),
        firstEmpty_eq_of_unique o2 p.1 (h2.mem_iff.mpr hpair)
          (by rw [h2.countP_eq]; exact hone)]

/-- C9 amended, at a concrete input: the declaration order and its reverse
give the same verdict on the two-empty-fields document. -/
theorem validate_order_independent_witness :
    verdictTag
      (validate (requiredFields twoEmptyComp) twoEmptyComp
        "org.example.app.metainfo.xml") =
    verdictTag
      (validate (requiredFields twoEmptyComp).reverse twoEmptyComp
        "org.example.app.metainfo.xml") :=
  (validate_order_independent twoEmptyComp "org.example.app.metainfo.xml"
      (requiredFields twoEmptyComp) (requiredFields twoEmptyComp).reverse
      (List.Perm.refl _) (List.reverse_perm _)).1

end Appstreamlint
